import Mathlib

/-!
Verification of the RevSight dual-source resilient data loader
(src/revopt_loader.js) against its specification.

The loader is embedded shallowly: JavaScript values are the inductive
type `JsVal`; the platform primitives the script calls (the `fetch`
transport, `JSON.parse` / `JSON.stringify`, `crypto.subtle` hashing,
the PapaParse decoder, `encodeURIComponent`, the `Number` coercion used
by the numeric sampler, and `localStorage` write acceptance) are fields
of an environment record `Env`; `localStorage` contents are an explicit
association list `Store` threaded through the functions that touch it.
Thrown exceptions are `Except.error` carrying the message string.
-/

/-- A JavaScript runtime value as this script manipulates them: the
JSON-representable values plus `undefined` (absent property). Numbers
are modelled as integers; the loader never does numeric arithmetic
(the payload decoder is configured with `dynamicTyping:false`, so cell
values are strings). Objects are association lists; property lookup
takes the first binding. -/
inductive JsVal where
  | undefined
  | null
  | bool (b : Bool)
  | num (n : Int)
  | str (s : String)
  | arr (elems : List JsVal)
  | obj (fields : List (String × JsVal))

/-- JavaScript truthiness of a value (`if (v)`, `v ? _ : _`, `v || d`). -/
def jsTruthy : JsVal → Bool
  | .undefined => false
  | .null => false
  | .bool b => b
  | .num n => n != 0
  | .str s => s != ""
  | .arr _ => true
  | .obj _ => true

mutual

/-- JavaScript `String(v)` coercion for the values above (template
literals and property keys). Arrays join their elements with commas,
rendering `null`/`undefined` elements as empty; objects render as
`[object Object]`. -/
def jsToString : JsVal → String
  | .undefined => "undefined"
  | .null => "null"
  | .bool b => if b then "true" else "false"
  | .num n => toString n
  | .str s => s
  | .obj _ => "[object Object]"
  | .arr xs => jsJoinWith "," xs

/-- JavaScript `Array.prototype.join(sep)`: elements are stringified,
except `null` and `undefined` which render as the empty string. -/
def jsJoinWith (sep : String) : List JsVal → String
  | [] => ""
  | .null :: vs => "" ++ (if vs.isEmpty then "" else sep) ++ jsJoinWith sep vs
  | .undefined :: vs => "" ++ (if vs.isEmpty then "" else sep) ++ jsJoinWith sep vs
  | v :: vs => jsToString v ++ (if vs.isEmpty then "" else sep) ++ jsJoinWith sep vs

end

/-- Property lookup in an object's field list; `undefined` when the key
is absent (first binding wins, mirroring unique JS object keys). -/
def objLookup (kvs : List (String × JsVal)) (k : String) : JsVal :=
  match kvs.find? (fun p => p.1 == k) with
  | some p => p.2
  | none => .undefined

/-- Element of an array (or character of a string) at a canonical
numeric index key, `undefined` otherwise. -/
def arrIndex (xs : List JsVal) (k : String) : JsVal :=
  match k.toNat? with
  | some i => if toString i = k then xs.getD i .undefined else .undefined
  | none => .undefined

/-- JavaScript `Object.keys(v)`: own enumerable keys — field names of
objects, index strings of arrays and strings, empty otherwise. -/
def jsKeys : JsVal → List String
  | .obj kvs => kvs.map (·.1)
  | .arr xs => (List.range xs.length).map toString
  | .str s => (List.range s.length).map toString
  | _ => []

/-- JavaScript property access `v[k]`: throws a TypeError on `null` and
`undefined`, looks up object fields, indexes arrays and strings
(including their `length`), and yields `undefined` on other primitives. -/
def getPropE : JsVal → String → Except String JsVal
  | .null, _ => .error "Cannot read properties of null"
  | .undefined, _ => .error "Cannot read properties of undefined"
  | .obj kvs, k => .ok (objLookup kvs k)
  | .arr xs, k => .ok (if k = "length" then .num xs.length else arrIndex xs k)
  | .str s, k =>
    .ok (if k = "length" then .num s.length
         else match (arrIndex (s.toList.map (fun c => .str (String.singleton c))) k) with
              | v => v)
  | .bool _, _ => .ok .undefined
  | .num _, _ => .ok .undefined

/-- JavaScript `v || d`: the first operand when truthy, else the default. -/
def jsOrVal (v d : JsVal) : JsVal := if jsTruthy v then v else d

/-- JavaScript `cols.includes(c)` for a list of strings `cols`:
SameValueZero equality, so only a string value can be found. -/
def jsIncludes (cols : List String) (c : JsVal) : Bool :=
  match c with
  | .str s => cols.contains s
  | _ => false

/-- ASCII-wise lowercasing, the behaviour of `toLowerCase` on the
hex digests this script compares. -/
def strLower (s : String) : String := String.mk (s.toList.map Char.toLower)

/-- JavaScript `v.toLowerCase()`: defined on strings, a TypeError on
anything else. -/
def jsToLowerE : JsVal → Except String String
  | .str s => .ok (strLower s)
  | _ => .error "toLowerCase is not a function"

/-- The receiver of `.filter` in `(schema.required_columns || []).filter(...)`:
an array gives its elements, any other (necessarily truthy) value lacks
the method and throws a TypeError. -/
def jsArrForFilter : JsVal → Except String (List JsVal)
  | .arr xs => .ok xs
  | _ => .error "filter is not a function"

/-- JavaScript `for (x of v)`: arrays iterate their elements, strings
their characters; other values are not iterable and throw. -/
def jsIterate : JsVal → Except String (List JsVal)
  | .arr xs => .ok xs
  | .str s => .ok (s.toList.map (fun c => .str (String.singleton c)))
  | _ => .error "is not iterable"

/-- Embeds `String(v).replace(/[$,%]/g,"").replace(/,/g,"")`
(src/revopt_loader.js line 42): drops every `$`, `,` and `%`. -/
def stripNumeric (s : String) : String :=
  String.mk (s.toList.filter (fun c => c != '$' && c != ',' && c != '%'))

/-- The guard `v!==null && v!==undefined && v!==""` of the numeric
sampler (src/revopt_loader.js line 41). -/
def cellPresent : JsVal → Bool
  | .null => false
  | .undefined => false
  | .str s => s != ""
  | _ => true

/-- The transport's answer to a `fetch` call: a rejected promise with a
message, or a response with an HTTP status and body text. -/
inductive FetchResponse where
  | reject (msg : String)
  | response (status : Nat) (body : String)

/-- The `localStorage` contents: an association list from key to the
stored string. -/
abbrev Store := List (String × String)

/-- `localStorage.getItem(k)`; `none` models the `null` returned for a
missing key. -/
def getItem (st : Store) (k : String) : Option String :=
  (st.find? (fun p => p.1 == k)).map (·.2)

/-- The successful effect of `localStorage.setItem(k, v)`. -/
def storeSet (st : Store) (k v : String) : Store :=
  (k, v) :: st.filter (fun p => p.1 != k)

/-- The platform capabilities the script consumes, abstracted as an
environment: the `fetch` transport (already given the final URL
string), `JSON.parse` (`Except.error` models a thrown SyntaxError),
`JSON.stringify`, the SHA-256 hex digest of `crypto.subtle`,
the PapaParse header-aware decoder (`none` when `window.Papa` is not
loaded), `encodeURIComponent`, the `Number.isNaN(Number(s))` test used
by the numeric sampler, and whether `localStorage.setItem` accepts a
write in a given state (quota/disabled failures). -/
structure Env where
  fetch : String → FetchResponse
  jsonParse : String → Except String JsVal
  stringify : JsVal → String
  hash : String → String
  papa : Option (String → Except String (List JsVal))
  encodeURIComponent : String → String
  numberIsNaN : String → Bool
  canSet : Store → String → String → Bool

/-- Constant `MANIFEST_URL` (src/revopt_loader.js line 5). -/
def MANIFEST_URL : String := "data/manifest.json"

/-- Constant `SCHEMA_URL` (line 6). -/
def SCHEMA_URL : String := "data/schema_v1.json"

/-- Constant `LKG_KEY` (line 7). -/
def LKG_KEY : String := "revopt:lkg:data"

/-- Constant `LKG_META_KEY` (line 8). -/
def LKG_META_KEY : String := "revopt:lkg:meta"

/-- `localStorage.setItem`: succeeds and updates the store when the
storage accepts the write, otherwise throws (quota exceeded or storage
disabled), leaving the store unchanged. -/
def setItem (env : Env) (st : Store) (k v : String) : Except Unit Store :=
  if env.canSet st k v then .ok (storeSet st k v) else .error ()

/-- Embeds `saveLKG` (src/revopt_loader.js lines 16-21): serializes
rows then meta under the two stable keys inside a `try` whose `catch`
swallows any storage failure, so a failed first write leaves the store
unchanged and a failed second write leaves only the rows key written. -/
def saveLKG (env : Env) (st : Store) (meta rows : JsVal) : Store :=
  match setItem env st LKG_KEY (env.stringify rows) with
  | .error _ => st
  | .ok st1 =>
    match setItem env st1 LKG_META_KEY (env.stringify meta) with
    | .error _ => st1
    | .ok st2 => st2

/-- `localStorage.getItem(k) || "null"`: a missing key (and the falsy
empty string) is replaced by the text `"null"` before parsing. -/
def orNullStr : Option String → String
  | none => "null"
  | some s => if s = "" then "null" else s

/-- Embeds `loadLKG` (src/revopt_loader.js lines 22-29): parses both
entries inside a `try` returning `null` on any parse failure, and
returns `null` when either deserialized value is falsy. -/
def loadLKG (env : Env) (st : Store) : Option (JsVal × JsVal) :=
  match env.jsonParse (orNullStr (getItem st LKG_KEY)) with
  | .error _ => none
  | .ok rows =>
    match env.jsonParse (orNullStr (getItem st LKG_META_KEY)) with
    | .error _ => none
    | .ok meta => if jsTruthy rows && jsTruthy meta then some (rows, meta) else none

/-- Embeds `fetchText` (src/revopt_loader.js lines 52-57): appends the
version as a cache-busting query parameter when truthy, rejects with
the transport's message or with `HTTP <status> for <url>` on a
non-2xx status, and returns the body text otherwise. -/
def fetchText (env : Env) (url version : JsVal) : Except String String :=
  let fin := if jsTruthy version
    then jsToString url ++ "?v=" ++ env.encodeURIComponent (jsToString version)
    else jsToString url
  match env.fetch fin with
  | .reject m => .error m
  | .response status body =>
    if 200 ≤ status ∧ status ≤ 299 then .ok body
    else .error ("HTTP " ++ toString status ++ " for " ++ fin)

/-- The inner loop of the numeric sampler (src/revopt_loader.js lines
39-48) over the sampled rows for one column key: skips absent/empty
cells, and on the first present cell whose stripped stringification is
not numerically coercible returns it as the (single) warning for the
column and stops sampling (`break`); property access on a non-object
row can throw. -/
def sampleCells (env : Env) (key : String) : List JsVal → Except String (Option JsVal)
  | [] => .ok none
  | r :: rest =>
    match getPropE r key with
    | .error e => .error e
    | .ok v =>
      if cellPresent v then
        if env.numberIsNaN (stripNumeric (jsToString v)) then .ok (some v)
        else sampleCells env key rest
      else sampleCells env key rest

/-- The outer loop of the numeric sampler (src/revopt_loader.js lines
38-49): for each declared numeric column, samples at most the first 50
rows and collects the per-column warnings in column order. -/
def warnCols (env : Env) (rows : List JsVal) : List JsVal → Except String (List (JsVal × JsVal))
  | [] => .ok []
  | col :: rest =>
    match sampleCells env (jsToString col) (rows.take 50) with
    | .error e => .error e
    | .ok none => warnCols env rows rest
    | .ok (some v) =>
      match warnCols env rows rest with
      | .error e => .error e
      | .ok ws => .ok ((col, v) :: ws)

/-- Embeds `validateSchema` (src/revopt_loader.js lines 31-50): throws
`empty dataset` on an empty row list; computes the column set from the
first row's keys (`Object.keys(rows[0] || {})`); throws
`missing columns: <list>` when any of `schema.required_columns` is not
among them; then runs the advisory numeric sampler, whose warnings are
the returned value (the script only logs them). -/
def validateSchema (env : Env) (rows : List JsVal) (schema : JsVal) : Except String (List (JsVal × JsVal)) :=
  if rows.isEmpty then .error "empty dataset"
  else
    let first := rows.headD .undefined
    let cols := jsKeys (jsOrVal first (.obj []))
    match getPropE schema "required_columns" with
    | .error e => .error e
    | .ok rv =>
      match jsArrForFilter (jsOrVal rv (.arr [])) with
      | .error e => .error e
      | .ok req =>
        let missing := req.filter (fun c => !jsIncludes cols c)
        if missing.isEmpty then
          match getPropE schema "numeric_columns" with
          | .error e => .error e
          | .ok nv =>
            match jsIterate (jsOrVal nv (.arr [])) with
            | .error e => .error e
            | .ok numCols => warnCols env rows numCols
        else .error ("missing columns: " ++ jsJoinWith ", " missing)

/-- The provenance object `{ source: "network", manifest }` built by
`loadNetwork` (src/revopt_loader.js lines 85-86). -/
def netMeta (manifest : JsVal) : JsVal :=
  .obj [("source", .str "network"), ("manifest", manifest)]

/-- The decode-and-validate tail of `loadNetwork` (src/revopt_loader.js
lines 83-86): `parseCSV` rejects when PapaParse is absent, the decoded
rows must pass `validateSchema`, and the result pairs the rows with the
network provenance. (The `saveLKG` call is applied by `loadNetwork`,
which owns the store.) -/
def decodeAndValidate (env : Env) (manifest schema : JsVal) (csvText : String) : Except String (JsVal × JsVal) :=
  match env.papa with
  | none => .error "PapaParse not loaded"
  | some dec =>
    match dec csvText with
    | .error e => .error e
    | .ok rows =>
      match validateSchema env rows schema with
      | .error e => .error e
      | .ok _ => .ok (.arr rows, netMeta manifest)

/-- The digest check and tail of `loadNetwork` (src/revopt_loader.js
lines 79-86): computes the payload digest; when `manifest.sha256` is
truthy compares it case-insensitively against the digest and throws
`Checksum mismatch. Expected <expected> got <actual>` on disagreement;
otherwise proceeds to decode and validate. -/
def finishLoad (env : Env) (manifest schema : JsVal) (csvText : String) : Except String (JsVal × JsVal) :=
  let digest := env.hash csvText
  match getPropE manifest "sha256" with
  | .error e => .error e
  | .ok shav =>
    if jsTruthy shav then
      match jsToLowerE shav with
      | .error e => .error e
      | .ok low =>
        if low ≠ strLower digest then
          .error ("Checksum mismatch. Expected " ++ jsToString shav ++ " got " ++ digest)
        else decodeAndValidate env manifest schema csvText
    else decodeAndValidate env manifest schema csvText

/-- The fetch-and-parse phase of `loadNetwork` (src/revopt_loader.js
lines 74-78): manifest text, manifest JSON, schema text (versioned by
`manifest.schema_version || ""`), schema JSON, then the payload text
(versioned by `manifest.version`). Property access on a non-object
manifest value can throw, as in the script. -/
def fetchPhase (env : Env) : Except String (JsVal × JsVal × String) :=
  match fetchText env (.str MANIFEST_URL) .undefined with
  | .error e => .error e
  | .ok manifestText =>
    match env.jsonParse manifestText with
    | .error e => .error e
    | .ok manifest =>
      match getPropE manifest "schema_version" with
      | .error e => .error e
      | .ok sv =>
        match fetchText env (.str SCHEMA_URL) (jsOrVal sv (.str "")) with
        | .error e => .error e
        | .ok schemaText =>
          match env.jsonParse schemaText with
          | .error e => .error e
          | .ok schema =>
            match getPropE manifest "url" with
            | .error e => .error e
            | .ok urlv =>
              match getPropE manifest "version" with
              | .error e => .error e
              | .ok verv =>
                match fetchText env urlv verv with
                | .error e => .error e
                | .ok csvText => .ok (manifest, schema, csvText)

/-- The store-free part of `loadNetwork` (src/revopt_loader.js lines
73-87): everything up to and including validation. -/
def loadNetworkCore (env : Env) : Except String (JsVal × JsVal) :=
  match fetchPhase env with
  | .error e => .error e
  | .ok (manifest, schema, csvText) => finishLoad env manifest schema csvText

/-- Embeds `loadNetwork` (src/revopt_loader.js lines 73-87) with the
store threaded explicitly: on success the validated rows and their
provenance are persisted via `saveLKG` and returned; on any failure the
store is untouched and the error propagates. -/
def loadNetwork (env : Env) (st : Store) : Store × Except String (JsVal × JsVal) :=
  match loadNetworkCore env with
  | .error e => (st, .error e)
  | .ok (rows, meta) => (saveLKG env st meta rows, .ok (rows, meta))

/-- The fixed part of the terminal error message of `loadData`
(src/revopt_loader.js line 97). -/
def noDataMsgStart : String := "No data available (network failed and no LKG). "

/-- Embeds `loadData` (src/revopt_loader.js lines 89-99): tries the
network path; on any error falls back to the LKG store, returning a
cached pair as-is when present, and otherwise fails with the terminal
error whose message embeds the network failure's message. -/
def loadData (env : Env) (st : Store) : Store × Except String (JsVal × JsVal) :=
  match loadNetwork env st with
  | (st', .ok r) => (st', .ok r)
  | (st', .error e) =>
    match loadLKG env st' with
    | some rm => (st', .ok rm)
    | none => (st', .error (noDataMsgStart ++ e))

/-! ### Concrete environments used to instantiate the theorems

Small deterministic instantiations of the platform capabilities, used
to evaluate the loader on concrete scenarios. -/

/-- The decoded row list of the concrete scenario: one row `{a: "1"}`. -/
def cxRowList : List JsVal := [.obj [("a", .str "1")]]

/-- The rows value of the concrete scenario as the decoder's array. -/
def cxRows : JsVal := .arr cxRowList

/-- A concrete manifest without a `sha256` field. -/
def cxManifest : JsVal := .obj [("url", .str "d.csv"), ("version", .str "1")]

/-- The provenance the loader persists for `cxManifest`. -/
def cxMeta : JsVal := netMeta cxManifest

/-- A concrete `JSON.stringify`: the scenario only ever serializes the
rows array and the provenance object, told apart by their head
constructor. -/
def cxStringify : JsVal → String
  | .arr _ => "ROWS"
  | _ => "META"

/-- A concrete `JSON.parse` table covering the strings the scenario
parses, including the round-trips of `cxStringify`. -/
def cxParse : String → Except String JsVal := fun s =>
  if s = "MT" then .ok cxManifest
  else if s = "ST" then .ok (.obj [])
  else if s = "ROWS" then .ok cxRows
  else if s = "META" then .ok cxMeta
  else if s = "null" then .ok .null
  else .error "Unexpected token"

/-- A concrete healthy transport serving the manifest, the schema and
the payload. -/
def cxFetch : String → FetchResponse := fun u =>
  if u = "data/manifest.json" then .response 200 "MT"
  else if u = "data/schema_v1.json" then .response 200 "ST"
  else .response 200 "CSV"

/-- A healthy environment: every fetch succeeds, the decoder yields
`cxRowList`, storage accepts all writes. -/
def cxEnv1 : Env :=
  { fetch := cxFetch
    jsonParse := cxParse
    stringify := cxStringify
    hash := fun _ => "h"
    papa := some (fun _ => .ok cxRowList)
    encodeURIComponent := fun s => s
    numberIsNaN := fun _ => false
    canSet := fun _ _ _ => true }

/-- The same environment with the network down: every fetch rejects. -/
def cxEnv2 : Env := { cxEnv1 with fetch := fun _ => .reject "offline" }

/-- The store left behind by a successful load in `cxEnv1` from an
empty store. -/
def cxStore1 : Store := (loadNetwork cxEnv1 []).1

/-- A concrete manifest carrying a `sha256` digest. -/
def cxManifestSha : JsVal :=
  .obj [("url", .str "d.csv"), ("version", .str "1"), ("sha256", .str "AB")]

/-- A `JSON.parse` table whose manifest carries the digest `AB`. -/
def cxParseSha : String → Except String JsVal := fun s =>
  if s = "MT" then .ok cxManifestSha
  else if s = "ST" then .ok (.obj [])
  else if s = "null" then .ok .null
  else .error "Unexpected token"

/-- An environment whose payload digest `ab` matches the manifest's
`AB` case-insensitively. -/
def cxEnvShaOk : Env := { cxEnv1 with jsonParse := cxParseSha, hash := fun _ => "ab" }

/-- An environment whose payload digest `zz` contradicts the manifest's
`AB`. -/
def cxEnvShaBad : Env := { cxEnv1 with jsonParse := cxParseSha, hash := fun _ => "zz" }

/-- The healthy environment with storage that rejects every write. -/
def cxEnvNoStore : Env := { cxEnv1 with canSet := fun _ _ _ => false }

/-- The healthy environment with a `Number` coercion that rejects every
sample, so each sampled column warns. -/
def cxEnvNaN : Env := { cxEnv1 with numberIsNaN := fun _ => true }

/-- A pre-existing store holding some earlier serialized entry. -/
def cxOldStore : Store := [(LKG_KEY, "OLD"), (LKG_META_KEY, "OLDM")]

/-! ### Basic lemmas about the embedding -/

@[simp] theorem getPropE_obj (kvs : List (String × JsVal)) (k : String) :
    getPropE (.obj kvs) k = .ok (objLookup kvs k) := rfl

theorem loadNetwork_of_core_error {env : Env} {e : String} (st : Store)
    (h : loadNetworkCore env = .error e) : loadNetwork env st = (st, .error e) := by
  simp [loadNetwork, h]

theorem loadNetwork_of_core_ok {env : Env} {rm : JsVal × JsVal} (st : Store)
    (h : loadNetworkCore env = .ok rm) :
    loadNetwork env st = (saveLKG env st rm.2 rm.1, .ok rm) := by
  cases rm
  simp [loadNetwork, h]

theorem loadNetwork_snd_error {env : Env} {st : Store} {e : String}
    (h : (loadNetwork env st).2 = .error e) :
    loadNetworkCore env = .error e ∧ (loadNetwork env st).1 = st := by
  cases hc : loadNetworkCore env with
  | error e' =>
    rw [loadNetwork_of_core_error st hc] at h ⊢
    simp at h
    simp [h, hc] at hc ⊢
  | ok r =>
    rw [loadNetwork_of_core_ok st (by rw [hc])] at h
    simp at h

/-- `sampleCells` consults the environment only through the `Number`
coercion. -/
theorem sampleCells_congr {e₁ e₂ : Env} (h : e₁.numberIsNaN = e₂.numberIsNaN)
    (ky : String) : ∀ rs, sampleCells e₁ ky rs = sampleCells e₂ ky rs := by
  intro rs
  induction rs with
  | nil => rfl
  | cons r rest ih => simp [sampleCells, h, ih]

/-- `warnCols` consults the environment only through the `Number`
coercion. -/
theorem warnCols_congr {e₁ e₂ : Env} (h : e₁.numberIsNaN = e₂.numberIsNaN)
    (rows : List JsVal) : ∀ cols, warnCols e₁ rows cols = warnCols e₂ rows cols := by
  intro cols
  induction cols with
  | nil => rfl
  | cons col rest ih =>
    simp only [warnCols, sampleCells_congr h, ih]

/-- `validateSchema` consults the environment only through the `Number`
coercion. -/
theorem validateSchema_congr {e₁ e₂ : Env} (h : e₁.numberIsNaN = e₂.numberIsNaN)
    (rows : List JsVal) (schema : JsVal) :
    validateSchema e₁ rows schema = validateSchema e₂ rows schema := by
  simp only [validateSchema, warnCols_congr h]

/-- `decodeAndValidate` consults the environment only through the
decoder and the `Number` coercion. -/
theorem decodeAndValidate_congr {e₁ e₂ : Env} (hp : e₁.papa = e₂.papa)
    (hn : e₁.numberIsNaN = e₂.numberIsNaN) (m sch : JsVal) (csv : String) :
    decodeAndValidate e₁ m sch csv = decodeAndValidate e₂ m sch csv := by
  simp only [decodeAndValidate, hp, validateSchema_congr hn]

/-- `finishLoad` consults the environment only through the digest, the
decoder and the `Number` coercion. -/
theorem finishLoad_congr {e₁ e₂ : Env} (hh : e₁.hash = e₂.hash)
    (hp : e₁.papa = e₂.papa) (hn : e₁.numberIsNaN = e₂.numberIsNaN)
    (m sch : JsVal) (csv : String) :
    finishLoad e₁ m sch csv = finishLoad e₂ m sch csv := by
  simp only [finishLoad, hh, decodeAndValidate_congr hp hn]

/-- `fetchText` consults the environment only through the transport and
the URI encoder. -/
theorem fetchText_congr {e₁ e₂ : Env} (hf : e₁.fetch = e₂.fetch)
    (he : e₁.encodeURIComponent = e₂.encodeURIComponent) (url version : JsVal) :
    fetchText e₁ url version = fetchText e₂ url version := by
  simp only [fetchText, hf, he]

/-- `fetchPhase` consults the environment only through the transport,
the JSON reader and the URI encoder. -/
theorem fetchPhase_congr {e₁ e₂ : Env} (hf : e₁.fetch = e₂.fetch)
    (hj : e₁.jsonParse = e₂.jsonParse)
    (he : e₁.encodeURIComponent = e₂.encodeURIComponent) :
    fetchPhase e₁ = fetchPhase e₂ := by
  simp only [fetchPhase, fetchText_congr hf he, hj]

/-- `loadLKG` consults the environment only through the JSON reader. -/
theorem loadLKG_congr {e₁ e₂ : Env} (hj : e₁.jsonParse = e₂.jsonParse)
    (st : Store) : loadLKG e₁ st = loadLKG e₂ st := by
  simp only [loadLKG, hj]

/-- `loadNetworkCore` never consults the storage-acceptance oracle or
the serializer. -/
theorem loadNetworkCore_congr {e₁ e₂ : Env} (hf : e₁.fetch = e₂.fetch)
    (hj : e₁.jsonParse = e₂.jsonParse) (hh : e₁.hash = e₂.hash)
    (hp : e₁.papa = e₂.papa) (he : e₁.encodeURIComponent = e₂.encodeURIComponent)
    (hn : e₁.numberIsNaN = e₂.numberIsNaN) :
    loadNetworkCore e₁ = loadNetworkCore e₂ := by
  simp only [loadNetworkCore, fetchPhase_congr hf hj he]
  cases fetchPhase e₂ with
  | error e => rfl
  | ok t => exact finishLoad_congr hh hp hn t.1 t.2.1 t.2.2

/-- Every error thrown by a property access is one of the two TypeError
messages. -/
theorem getPropE_error_shape {v : JsVal} {k e : String} (h : getPropE v k = .error e) :
    e = "Cannot read properties of null" ∨ e = "Cannot read properties of undefined" := by
  cases v <;> simp [getPropE] at h <;> simp [h]

/-- Every error thrown while sampling cells is a property-access
TypeError. -/
theorem sampleCells_error_shape {env : Env} {ky : String} :
    ∀ {rs : List JsVal} {e : String}, sampleCells env ky rs = .error e →
    e = "Cannot read properties of null" ∨ e = "Cannot read properties of undefined" := by
  intro rs
  induction rs with
  | nil => intro e h; simp [sampleCells] at h
  | cons r rest ih =>
    intro e h
    rw [sampleCells] at h
    cases hg : getPropE r ky with
    | error e' =>
      rw [hg] at h
      simp at h
      exact h ▸ getPropE_error_shape hg
    | ok v =>
      rw [hg] at h
      simp only at h
      split at h
      · split at h
        · simp at h
        · exact ih h
      · exact ih h

/-- Every error thrown by the numeric sampler is a property-access
TypeError. -/
theorem warnCols_error_shape {env : Env} {rows : List JsVal} :
    ∀ {cols : List JsVal} {e : String}, warnCols env rows cols = .error e →
    e = "Cannot read properties of null" ∨ e = "Cannot read properties of undefined" := by
  intro cols
  induction cols with
  | nil => intro e h; simp [warnCols] at h
  | cons col rest ih =>
    intro e h
    rw [warnCols] at h
    cases hs : sampleCells env (jsToString col) (rows.take 50) with
    | error e' =>
      rw [hs] at h
      simp at h
      exact h ▸ sampleCells_error_shape hs
    | ok o =>
      rw [hs] at h
      cases o with
      | none => exact ih h
      | some v =>
        simp only at h
        cases hw : warnCols env rows rest with
        | error e' =>
          rw [hw] at h
          simp at h
          exact h ▸ ih hw
        | ok ws => rw [hw] at h; simp at h

/-- A string whose first character is not `m` is never a
missing-columns message. -/
theorem ne_missingMsg_of_head {c : String} (hc : c.data.head? ≠ some 'm') (l : String) :
    c ≠ "missing columns: " ++ l := by
  intro he
  apply hc
  rw [he]
  rw [String.data_append]
  rfl

/-- Sampling never throws over rows that are all objects. -/
theorem sampleCells_ok_of_obj {env : Env} {ky : String} :
    ∀ {rs : List JsVal}, (∀ r ∈ rs, ∃ kvs, r = JsVal.obj kvs) →
    ∃ o, sampleCells env ky rs = .ok o := by
  intro rs
  induction rs with
  | nil => intro _; exact ⟨none, rfl⟩
  | cons r rest ih =>
    intro hobj
    obtain ⟨kvs, hk⟩ := hobj r (by simp)
    obtain ⟨o, ho⟩ := ih (fun r' hr' => hobj r' (by simp [hr']))
    subst hk
    rw [sampleCells, getPropE_obj]
    simp only
    split
    · split
      · exact ⟨some (objLookup kvs ky), rfl⟩
      · exact ⟨o, ho⟩
    · exact ⟨o, ho⟩

/-- When no column's sampling throws, the sampler succeeds and yields
at most one warning per declared column, in declaration order. -/
theorem warnCols_ok_sublist {env : Env} {rows : List JsVal}
    (hok : ∀ ky, ∃ o, sampleCells env ky (rows.take 50) = .ok o) :
    ∀ cols, ∃ ws, warnCols env rows cols = .ok ws ∧ List.Sublist (ws.map Prod.fst) cols := by
  intro cols
  induction cols with
  | nil => exact ⟨[], rfl, List.Sublist.refl []⟩
  | cons col rest ih =>
    obtain ⟨ws, hws, hsub⟩ := ih
    obtain ⟨o, ho⟩ := hok (jsToString col)
    cases o with
    | none => exact ⟨ws, by rw [warnCols, ho]; exact hws, hsub.cons col⟩
    | some v =>
      refine ⟨(col, v) :: ws, ?_, ?_⟩
      · rw [warnCols, ho, hws]
      · simpa using hsub.cons₂ col

/-- The numeric sampler reads only the first fifty rows. -/
theorem warnCols_take_congr {env : Env} {rows rows₂ : List JsVal}
    (h : rows.take 50 = rows₂.take 50) :
    ∀ cols, warnCols env rows cols = warnCols env rows₂ cols := by
  intro cols
  induction cols with
  | nil => rfl
  | cons col rest ih => rw [warnCols, warnCols, h, ih]

/-- `validateSchema` reads only the first fifty rows. -/
theorem validateSchema_take_congr {env : Env} {rows rows₂ : List JsVal}
    (h : rows.take 50 = rows₂.take 50) (schema : JsVal) :
    validateSchema env rows schema = validateSchema env rows₂ schema := by
  have hemp : rows.isEmpty = rows₂.isEmpty := by
    cases rows with
    | nil =>
      cases rows₂ with
      | nil => rfl
      | cons b bs => simp [List.take] at h
    | cons a as =>
      cases rows₂ with
      | nil => simp [List.take] at h
      | cons b bs => rfl
  have hhead : rows.headD JsVal.undefined = rows₂.headD JsVal.undefined := by
    cases rows with
    | nil =>
      cases rows₂ with
      | nil => rfl
      | cons b bs => simp [List.take] at h
    | cons a as =>
      cases rows₂ with
      | nil => simp [List.take] at h
      | cons b bs =>
        simp only [List.take, List.cons.injEq] at h
        simp [h.1]
  simp only [validateSchema, hemp, hhead, warnCols_take_congr h]

/-- Reading back the key just written. -/
theorem getItem_storeSet_self (st : Store) (k v : String) :
    getItem (storeSet st k v) k = some v := by
  simp [getItem, storeSet]

/-- Dropping the bindings of one key does not change the first match of
a different key. -/
theorem find?_filter_ne {k k' : String} (h : k' ≠ k) :
    ∀ st : List (String × String),
    List.find? (fun p => p.1 == k') (st.filter (fun p => p.1 != k)) =
    List.find? (fun p => p.1 == k') st
  | [] => rfl
  | p :: ps => by
    by_cases hp : p.1 = k
    · have h2 : (k == k') = false := by simp [Ne.symm h]
      simp [List.filter_cons, List.find?_cons, hp, h2, find?_filter_ne h ps]
    · by_cases hp' : p.1 = k'
      · simp [List.filter_cons, List.find?_cons, hp, hp', h]
      · simp [List.filter_cons, List.find?_cons, hp, hp', find?_filter_ne h ps]

/-- Writing one key leaves the other readings unchanged. -/
theorem getItem_storeSet_ne (st : Store) {k k' : String} (v : String) (h : k' ≠ k) :
    getItem (storeSet st k v) k' = getItem st k' := by
  have h2 : (k == k') = false := by simp [Ne.symm h]
  simp [getItem, storeSet, List.find?_cons, h2, find?_filter_ne h st]

/-- `saveLKG` consults the environment only through the serializer and
the storage-acceptance oracle. -/
theorem saveLKG_congr {e₁ e₂ : Env} (hs : e₁.stringify = e₂.stringify)
    (hc : e₁.canSet = e₂.canSet) (st : Store) (m r : JsVal) :
    saveLKG e₁ st m r = saveLKG e₂ st m r := by
  simp only [saveLKG, setItem, hs, hc]

/-- Every error thrown by `for..of` over a non-iterable is the
TypeError. -/
theorem jsIterate_error_shape {v : JsVal} {e : String} (h : jsIterate v = .error e) :
    e = "is not iterable" := by
  cases v <;> simp [jsIterate] at h <;> simp [h]

/-- A successful fetch phase pins down the manifest: it is the parse of
the fetched manifest text. -/
theorem fetchPhase_inv {env : Env} {t : JsVal × JsVal × String}
    (hp : fetchPhase env = .ok t) :
    ∃ mt', fetchText env (.str MANIFEST_URL) .undefined = .ok mt'
      ∧ env.jsonParse mt' = .ok t.1 := by
  rw [fetchPhase] at hp
  cases hf : fetchText env (.str MANIFEST_URL) .undefined with
  | error e => simp [hf] at hp
  | ok mt' =>
    simp only [hf] at hp
    cases hj : env.jsonParse mt' with
    | error e => simp [hj] at hp
    | ok manifest =>
      simp only [hj] at hp
      refine ⟨mt', rfl, ?_⟩
      cases h1 : getPropE manifest "schema_version" with
      | error e => simp [h1] at hp
      | ok sv =>
      simp only [h1] at hp
      cases h2 : fetchText env (.str SCHEMA_URL) (jsOrVal sv (.str "")) with
      | error e => simp [h2] at hp
      | ok sText =>
      simp only [h2] at hp
      cases h3 : env.jsonParse sText with
      | error e => simp [h3] at hp
      | ok schemaV =>
      simp only [h3] at hp
      cases h4 : getPropE manifest "url" with
      | error e => simp [h4] at hp
      | ok urlv =>
      simp only [h4] at hp
      cases h5 : getPropE manifest "version" with
      | error e => simp [h5] at hp
      | ok verv =>
      simp only [h5] at hp
      cases h6 : fetchText env urlv verv with
      | error e => simp [h6] at hp
      | ok csv =>
      simp only [h6, Except.ok.injEq] at hp
      rw [← hp]
      exact hj

/-- Reduction of `validateSchema` on a non-empty row list once the
required-columns extraction is known. -/
theorem validateSchema_cons_reduce (env : Env) (r0 : JsVal) (rest : List JsVal)
    {schema rv : JsVal} {req : List JsVal}
    (hre : getPropE schema "required_columns" = .ok rv)
    (hra : jsArrForFilter (jsOrVal rv (.arr [])) = .ok req) :
    validateSchema env (r0 :: rest) schema =
      (if (req.filter (fun c => !jsIncludes (jsKeys (jsOrVal r0 (.obj []))) c)).isEmpty then
         match getPropE schema "numeric_columns" with
         | .error e => .error e
         | .ok nv =>
           match jsIterate (jsOrVal nv (.arr [])) with
           | .error e => .error e
           | .ok numCols => warnCols env (r0 :: rest) numCols
       else .error ("missing columns: " ++
         jsJoinWith ", " (req.filter (fun c => !jsIncludes (jsKeys (jsOrVal r0 (.obj []))) c)))) := by
  rw [validateSchema]
  simp only [List.isEmpty_cons, List.headD_cons, hre, hra, Bool.false_eq_true, if_false]

/-! ### Claim theorems -/

/-- C1 (amended): if the network path raises any error and the LKG
store yields an entry, `loadData` returns exactly the cached rows and
meta, with the store untouched. (The cached meta is returned as-is: its
`source` field is whatever was stored — `"network"` for entries written
by the loader — not `"cache"`; see the counterexample.) -/
theorem C1_fallback_returns_cache (env : Env) (st : Store) (e : String)
    {rm : JsVal × JsVal}
    (h1 : (loadNetwork env st).2 = .error e)
    (h2 : loadLKG env st = some rm) :
    loadData env st = (st, .ok rm) := by
  obtain ⟨hcore, _⟩ := loadNetwork_snd_error h1
  simp [loadData, loadNetwork_of_core_error st hcore, h2]

/-- C1 witness: a concrete fallback after a successful load followed by
an offline attempt returns the cached pair unchanged. -/
theorem C1_fallback_returns_cache_witness :
    loadData cxEnv2 cxStore1 = (cxStore1, .ok (cxRows, cxMeta)) :=
  C1_fallback_returns_cache cxEnv2 cxStore1 "offline" (by rfl) (by rfl)

/-- C1 counterexample: in a run where the first load succeeds and the
second attempt fails with the network down, the fallback result's
`meta.source` is `"network"` (the stored value), not `"cache"` as the
claim states. -/
theorem C1_meta_source_not_cache :
    (loadNetwork cxEnv2 cxStore1).2 = .error "offline"
    ∧ loadLKG cxEnv2 cxStore1 = some (cxRows, cxMeta)
    ∧ (loadData cxEnv2 cxStore1).2 = .ok (cxRows, cxMeta)
    ∧ getPropE cxMeta "source" = .ok (.str "network")
    ∧ JsVal.str "network" ≠ JsVal.str "cache" := by
  refine ⟨rfl, rfl, rfl, rfl, ?_⟩
  intro h
  injection h with h'
  exact absurd h' (by decide)

/-- C2: when the network path fails and the LKG store is empty,
`loadData` fails with the single terminal error whose message is the
fixed text followed by the network failure's message; conversely every
error `loadData` ever raises is of exactly this shape, so no error of
the network-path taxonomy reaches the caller. -/
theorem C2_terminal_error_only (env : Env) (st : Store) :
    (∀ e, (loadNetwork env st).2 = .error e → loadLKG env st = none →
      loadData env st = (st, .error (noDataMsgStart ++ e)))
    ∧ (∀ st' m, loadData env st = (st', .error m) →
      ∃ e, loadNetworkCore env = .error e ∧ loadLKG env st = none
        ∧ m = noDataMsgStart ++ e ∧ st' = st) := by
  constructor
  · intro e h1 h2
    obtain ⟨hcore, _⟩ := loadNetwork_snd_error h1
    simp [loadData, loadNetwork_of_core_error st hcore, h2]
  · intro st' m h
    cases hc : loadNetworkCore env with
    | ok rm =>
      rw [loadData] at h
      rw [loadNetwork_of_core_ok st hc] at h
      simp at h
    | error e =>
      rw [loadData] at h
      rw [loadNetwork_of_core_error st hc] at h
      cases hl : loadLKG env st with
      | some rm => simp [hl] at h
      | none =>
        simp only [hl] at h
        have h1 := congrArg Prod.fst h
        have h2 := congrArg Prod.snd h
        simp only at h1 h2
        injection h2 with h3
        exact ⟨e, rfl, rfl, h3.symm, h1.symm⟩

/-- C2 witness: with the network down and an empty store, the concrete
loader fails with the terminal message embedding `offline`. -/
theorem C2_terminal_error_only_witness :
    loadData cxEnv2 [] = ([], .error (noDataMsgStart ++ "offline")) :=
  (C2_terminal_error_only cxEnv2 []).1 "offline" (by rfl) (by rfl)

/-- C10: a schema object lacking both `required_columns` and
`numeric_columns` validates any non-empty row list with no warnings:
each absent field is defaulted to the empty list, so no requirement is
imposed and no sampling occurs. -/
theorem C10_absent_schema_fields (env : Env) (rows : List JsVal)
    (kvs : List (String × JsVal))
    (hreq : objLookup kvs "required_columns" = .undefined)
    (hnum : objLookup kvs "numeric_columns" = .undefined)
    (hne : rows ≠ []) :
    validateSchema env rows (.obj kvs) = .ok [] := by
  cases rows with
  | nil => exact absurd rfl hne
  | cons r rest =>
    rw [validateSchema]
    simp [hreq, hnum, jsOrVal, jsTruthy, jsArrForFilter, jsIterate, warnCols]

/-- C10 witness: the empty-schema validation of a one-row list
succeeds with no warnings. -/
theorem C10_absent_schema_fields_witness :
    validateSchema cxEnv1 [JsVal.num 5] (.obj [("other", .null)]) = .ok [] :=
  C10_absent_schema_fields cxEnv1 [JsVal.num 5] [("other", .null)]
    (by rfl) (by rfl) (by simp)

/-- C8: the LKG store operations never surface a failure. The outcome
`loadData` delivers to its caller is independent of which storage
writes the platform accepts (a storage failure is swallowed by
`saveLKG` and never aborts a successful load), and `loadLKG` answers
`none` — raising nothing — whenever either persisted key is missing,
its value fails to parse, or it deserializes to JSON `null`. -/
theorem C8_store_never_raises (env : Env) (c' : Store → String → String → Bool)
    (st : Store) (hnull : env.jsonParse "null" = .ok .null) :
    ((loadData { env with canSet := c' } st).2 = (loadData env st).2)
    ∧ (getItem st LKG_KEY = none → loadLKG env st = none)
    ∧ (getItem st LKG_META_KEY = none → loadLKG env st = none)
    ∧ (∀ e, env.jsonParse (orNullStr (getItem st LKG_KEY)) = .error e →
        loadLKG env st = none)
    ∧ (∀ e, env.jsonParse (orNullStr (getItem st LKG_META_KEY)) = .error e →
        loadLKG env st = none)
    ∧ (env.jsonParse (orNullStr (getItem st LKG_KEY)) = .ok .null →
        loadLKG env st = none)
    ∧ (env.jsonParse (orNullStr (getItem st LKG_META_KEY)) = .ok .null →
        loadLKG env st = none) := by
  have hcoreEq : loadNetworkCore { env with canSet := c' } = loadNetworkCore env :=
    loadNetworkCore_congr rfl rfl rfl rfl rfl rfl
  have hlkgEq : ∀ s, loadLKG { env with canSet := c' } s = loadLKG env s :=
    fun s => loadLKG_congr rfl s
  refine ⟨?_, ?_, ?_, ?_, ?_, ?_, ?_⟩
  · cases hc : loadNetworkCore env with
    | error e =>
      simp only [loadData, loadNetwork_of_core_error st hc,
        loadNetwork_of_core_error st (hcoreEq.trans hc), hlkgEq]
    | ok rm =>
      simp only [loadData, loadNetwork_of_core_ok st hc,
        loadNetwork_of_core_ok st (hcoreEq.trans hc)]
  · intro h
    simp only [loadLKG, h, orNullStr, hnull]
    split <;> simp [jsTruthy]
  · intro h
    simp only [loadLKG, h, orNullStr, hnull]
    split <;> simp [jsTruthy]
  · intro e he
    simp [loadLKG, he]
  · intro e he
    simp only [loadLKG, he]
    split <;> simp [jsTruthy]
  · intro he
    simp only [loadLKG, he]
    split <;> simp [jsTruthy]
  · intro he
    simp only [loadLKG, he]
    split <;> simp [jsTruthy]

/-- C8 witness: on the concrete healthy environment with an empty
store, the LKG read is absent, and turning off all storage writes does
not change the outcome the caller sees. -/
theorem C8_store_never_raises_witness :
    loadLKG cxEnv1 [] = none
    ∧ (loadData { cxEnv1 with canSet := fun _ _ _ => false } []).2 = (loadData cxEnv1 []).2 :=
  ⟨(C8_store_never_raises cxEnv1 (fun _ _ _ => false) [] (by rfl)).2.1 (by rfl),
   (C8_store_never_raises cxEnv1 (fun _ _ _ => false) [] (by rfl)).1⟩

/-- C5 (amended): the loader writes the store only through `saveLKG`
and only after `validateSchema` has succeeded on the decoded rows, so
every entry the loader writes is a validated dataset; and when the
storage accepts both writes, a successful network load overwrites both
keys with the new serialized rows and provenance, whatever the store
held before. (If the storage rejects a write the failure is swallowed
and the store keeps its previous contents; see the counterexample.) -/
theorem C5_store_discipline (env : Env) (st : Store) :
    (∀ rm : JsVal × JsVal, loadNetworkCore env = .ok rm →
      ∃ rows schemaV ws, rm.1 = .arr rows ∧ validateSchema env rows schemaV = .ok ws)
    ∧ ((loadNetwork env st).1 = st ∨
      ∃ rm : JsVal × JsVal, loadNetworkCore env = .ok rm ∧
        (loadNetwork env st).1 = saveLKG env st rm.2 rm.1)
    ∧ (∀ rm : JsVal × JsVal, loadNetworkCore env = .ok rm →
      env.canSet st LKG_KEY (env.stringify rm.1) = true →
      env.canSet (storeSet st LKG_KEY (env.stringify rm.1)) LKG_META_KEY (env.stringify rm.2) = true →
      getItem (loadNetwork env st).1 LKG_KEY = some (env.stringify rm.1) ∧
      getItem (loadNetwork env st).1 LKG_META_KEY = some (env.stringify rm.2)) := by
  refine ⟨?_, ?_, ?_⟩
  · intro rm hcore
    rw [loadNetworkCore] at hcore
    cases hp : fetchPhase env with
    | error e => simp [hp] at hcore
    | ok t =>
      simp only [hp] at hcore
      rw [finishLoad] at hcore
      cases hsha : getPropE t.1 "sha256" with
      | error e => simp [hsha] at hcore
      | ok shav =>
        simp only [hsha] at hcore
        have hdv : decodeAndValidate env t.1 t.2.1 t.2.2 = .ok rm →
            ∃ rows schemaV ws, rm.1 = .arr rows ∧ validateSchema env rows schemaV = .ok ws := by
          intro hdec
          rw [decodeAndValidate] at hdec
          cases hpp : env.papa with
          | none => simp [hpp] at hdec
          | some dec =>
            simp only [hpp] at hdec
            cases hrows : dec t.2.2 with
            | error e => simp [hrows] at hdec
            | ok rows =>
              simp only [hrows] at hdec
              cases hval : validateSchema env rows t.2.1 with
              | error e => simp [hval] at hdec
              | ok ws =>
                simp only [hval, Except.ok.injEq] at hdec
                exact ⟨rows, t.2.1, ws, by rw [← hdec], hval⟩
        split at hcore
        · cases hlow : jsToLowerE shav with
          | error e => simp [hlow] at hcore
          | ok low =>
            simp only [hlow] at hcore
            split at hcore
            · simp at hcore
            · exact hdv hcore
        · exact hdv hcore
  · cases hc : loadNetworkCore env with
    | error e => exact Or.inl (by rw [loadNetwork_of_core_error st hc])
    | ok rm => exact Or.inr ⟨rm, rfl, by rw [loadNetwork_of_core_ok st hc]⟩
  · intro rm hcore h1 h2
    rw [loadNetwork_of_core_ok st hcore]
    simp only [saveLKG, setItem, h1, h2, if_true]
    constructor
    · rw [getItem_storeSet_ne _ _ (by decide)]
      exact getItem_storeSet_self _ _ _
    · exact getItem_storeSet_self _ _ _

/-- C5 witness: on the concrete healthy environment over the old store,
a successful load leaves both keys holding the new serialized entry. -/
theorem C5_store_discipline_witness :
    getItem (loadNetwork cxEnv1 cxOldStore).1 LKG_KEY = some (cxEnv1.stringify cxRows)
    ∧ getItem (loadNetwork cxEnv1 cxOldStore).1 LKG_META_KEY = some (cxEnv1.stringify cxMeta) :=
  (C5_store_discipline cxEnv1 cxOldStore).2.2 (cxRows, cxMeta) (by rfl) (by rfl) (by rfl)

/-- C5 counterexample: with storage that rejects writes (quota
exceeded/disabled), a fully successful network load does not overwrite
the store — the old entry survives — so "a successful network load
always overwrites the store" fails as stated. -/
theorem C5_no_overwrite_on_storage_failure :
    loadNetworkCore cxEnvNoStore = .ok (cxRows, cxMeta)
    ∧ loadNetwork cxEnvNoStore cxOldStore = (cxOldStore, .ok (cxRows, cxMeta))
    ∧ getItem cxOldStore LKG_KEY = some "OLD"
    ∧ cxEnvNoStore.stringify cxRows = "ROWS"
    ∧ ("OLD" : String) ≠ "ROWS" := by
  exact ⟨rfl, rfl, rfl, rfl, by decide⟩

/-- C3: when every fetch and parse succeeds but the manifest's truthy
`sha256` disagrees case-insensitively with the payload's digest, the
network path fails with the checksum message carrying both the expected
and the actual digest, and neither `loadNetwork` nor the subsequent
fallback of `loadData` writes the store. -/
theorem C3_checksum_mismatch_no_write (env : Env) (st : Store)
    (mkvs : List (String × JsVal)) (mt sText csv s : String) (schemaV : JsVal)
    (hfm : fetchText env (.str MANIFEST_URL) .undefined = .ok mt)
    (hpm : env.jsonParse mt = .ok (.obj mkvs))
    (hfs : fetchText env (.str SCHEMA_URL)
      (jsOrVal (objLookup mkvs "schema_version") (.str "")) = .ok sText)
    (hps : env.jsonParse sText = .ok schemaV)
    (hfc : fetchText env (objLookup mkvs "url") (objLookup mkvs "version") = .ok csv)
    (hsha : objLookup mkvs "sha256" = .str s)
    (hne : s ≠ "")
    (hmm : strLower s ≠ strLower (env.hash csv)) :
    loadNetwork env st =
      (st, .error ("Checksum mismatch. Expected " ++ s ++ " got " ++ env.hash csv))
    ∧ (loadData env st).1 = st := by
  have hphase : fetchPhase env = .ok (.obj mkvs, schemaV, csv) := by
    rw [fetchPhase]
    simp only [hfm, hpm, getPropE_obj, hfs, hps, hfc]
  have hcore : loadNetworkCore env =
      .error ("Checksum mismatch. Expected " ++ s ++ " got " ++ env.hash csv) := by
    rw [loadNetworkCore]
    simp only [hphase, finishLoad, getPropE_obj, hsha]
    have ht : jsTruthy (.str s) = true := by simp [jsTruthy, hne]
    simp only [ht, if_true, jsToLowerE]
    rw [if_pos hmm]
    simp [jsToString]
  refine ⟨loadNetwork_of_core_error st hcore, ?_⟩
  simp only [loadData, loadNetwork_of_core_error st hcore]
  split <;> rfl

/-- C3 witness: with digest `zz` against expected `AB`, the concrete
loader fails with the checksum message and leaves the store empty. -/
theorem C3_checksum_mismatch_no_write_witness :
    loadNetwork cxEnvShaBad [] =
      ([], .error ("Checksum mismatch. Expected " ++ "AB" ++ " got " ++ cxEnvShaBad.hash "CSV"))
    ∧ (loadData cxEnvShaBad []).1 = [] :=
  C3_checksum_mismatch_no_write cxEnvShaBad [] _ "MT" "ST" "CSV" "AB" (.obj [])
    (by rfl) (by rfl) (by rfl) (by rfl) (by rfl) (by rfl)
    (by decide) (by decide)

/-- C4: when every fetch and parse succeeds, the digest matches the
manifest's `sha256` case-insensitively, decoding succeeds, and
validation passes, `loadNetwork` returns exactly the decoded rows with
provenance `{source:"network", manifest}`, persists them, and
`loadData` surfaces the same result. -/
theorem C4_success_returns_network (env : Env) (st : Store)
    (mkvs : List (String × JsVal)) (mt sText csv s : String) (schemaV : JsVal)
    (dec : String → Except String (List JsVal)) (rows : List JsVal)
    (ws : List (JsVal × JsVal))
    (hfm : fetchText env (.str MANIFEST_URL) .undefined = .ok mt)
    (hpm : env.jsonParse mt = .ok (.obj mkvs))
    (hfs : fetchText env (.str SCHEMA_URL)
      (jsOrVal (objLookup mkvs "schema_version") (.str "")) = .ok sText)
    (hps : env.jsonParse sText = .ok schemaV)
    (hfc : fetchText env (objLookup mkvs "url") (objLookup mkvs "version") = .ok csv)
    (hsha : objLookup mkvs "sha256" = .str s)
    (hmatch : strLower s = strLower (env.hash csv))
    (hdec : env.papa = some dec)
    (hrows : dec csv = .ok rows)
    (hval : validateSchema env rows schemaV = .ok ws) :
    loadNetworkCore env = .ok (.arr rows, netMeta (.obj mkvs))
    ∧ loadData env st = (saveLKG env st (netMeta (.obj mkvs)) (.arr rows),
        .ok (.arr rows, netMeta (.obj mkvs))) := by
  have hphase : fetchPhase env = .ok (.obj mkvs, schemaV, csv) := by
    rw [fetchPhase]
    simp only [hfm, hpm, getPropE_obj, hfs, hps, hfc]
  have hdv : decodeAndValidate env (.obj mkvs) schemaV csv =
      .ok (.arr rows, netMeta (.obj mkvs)) := by
    simp only [decodeAndValidate, hdec, hrows, hval]
  have hcore : loadNetworkCore env = .ok (.arr rows, netMeta (.obj mkvs)) := by
    rw [loadNetworkCore]
    simp only [hphase, finishLoad, getPropE_obj, hsha, jsToLowerE]
    by_cases hse : s = ""
    · subst hse
      simp only [jsTruthy]
      simpa using hdv
    · have ht : jsTruthy (.str s) = true := by simp [jsTruthy, hse]
      simp only [ht, if_true]
      rw [if_neg (fun hcon => hcon hmatch)]
      exact hdv
  refine ⟨hcore, ?_⟩
  simp only [loadData, loadNetwork_of_core_ok st hcore]

/-- C4 witness: the concrete environment with matching digests loads
from the network and persists the entry. -/
theorem C4_success_returns_network_witness :
    loadNetworkCore cxEnvShaOk = .ok (.arr cxRowList, netMeta cxManifestSha)
    ∧ loadData cxEnvShaOk [] = (saveLKG cxEnvShaOk [] (netMeta cxManifestSha) (.arr cxRowList),
        .ok (.arr cxRowList, netMeta cxManifestSha)) := by
  have h := C4_success_returns_network cxEnvShaOk []
    [("url", .str "d.csv"), ("version", .str "1"), ("sha256", .str "AB")]
    "MT" "ST" "CSV" "AB" (.obj []) (fun _ => .ok cxRowList) cxRowList []
    (by rfl) (by rfl) (by rfl) (by rfl) (by rfl) (by rfl) (by rfl) (by rfl) (by rfl) (by rfl)
  exact h

/-- C9: when the fetched manifest's `sha256` is absent, `null` or the
empty string, the digest comparison is skipped entirely: the outcome of
the network path — and of the whole load — does not depend on the
digest function at all, so no checksum failure can arise on that load. -/
theorem C9_falsy_sha_skips_digest (env : Env) (h₁ h₂ : String → String)
    (mkvs : List (String × JsVal)) (mt : String)
    (hfm : fetchText env (.str MANIFEST_URL) .undefined = .ok mt)
    (hpm : env.jsonParse mt = .ok (.obj mkvs))
    (hsha : objLookup mkvs "sha256" = .undefined ∨ objLookup mkvs "sha256" = .null
      ∨ objLookup mkvs "sha256" = .str "") :
    loadNetworkCore { env with hash := h₁ } = loadNetworkCore { env with hash := h₂ }
    ∧ ∀ st, loadData { env with hash := h₁ } st = loadData { env with hash := h₂ } st := by
  have hph1 : fetchPhase { env with hash := h₁ } = fetchPhase env := fetchPhase_congr rfl rfl rfl
  have hph2 : fetchPhase { env with hash := h₂ } = fetchPhase env := fetchPhase_congr rfl rfl rfl
  have hcore : loadNetworkCore { env with hash := h₁ } = loadNetworkCore { env with hash := h₂ } := by
    rw [loadNetworkCore, loadNetworkCore, hph1, hph2]
    cases hp : fetchPhase env with
    | error e => rfl
    | ok t =>
      obtain ⟨mt', hmt', hpm'⟩ := fetchPhase_inv hp
      have hmteq : mt = mt' := by
        have h' := hfm.symm.trans hmt'
        injection h'
      have hm1 : t.1 = .obj mkvs := by
        rw [← hmteq] at hpm'
        have h'' := hpm.symm.trans hpm'
        injection h'' with h3
        exact h3.symm
      show finishLoad { env with hash := h₁ } t.1 t.2.1 t.2.2
        = finishLoad { env with hash := h₂ } t.1 t.2.1 t.2.2
      rw [hm1]
      simp only [finishLoad, getPropE_obj]
      rcases hsha with h | h | h <;>
        rw [h] <;>
        simp only [jsTruthy, Bool.false_eq_true, if_false, bne_self_eq_false] <;>
        exact @decodeAndValidate_congr { env with hash := h₁ } { env with hash := h₂ }
          rfl rfl _ _ _
  refine ⟨hcore, fun st => ?_⟩
  have hlkg : loadLKG { env with hash := h₁ } st = loadLKG { env with hash := h₂ } st :=
    loadLKG_congr rfl st
  cases hc : loadNetworkCore { env with hash := h₂ } with
  | error e =>
    simp only [loadData, loadNetwork_of_core_error st hc,
      loadNetwork_of_core_error st (hcore.trans hc), hlkg]
  | ok rm =>
    have hsave : saveLKG { env with hash := h₁ } st rm.2 rm.1
        = saveLKG { env with hash := h₂ } st rm.2 rm.1 := saveLKG_congr rfl rfl st _ _
    simp only [loadData, loadNetwork_of_core_ok st hc,
      loadNetwork_of_core_ok st (hcore.trans hc), hsave]

/-- C9 witness: on the concrete manifest without a `sha256` field, two
loads that differ only in the digest function agree. -/
theorem C9_falsy_sha_skips_digest_witness :
    loadNetworkCore { cxEnv1 with hash := fun _ => "x" }
      = loadNetworkCore { cxEnv1 with hash := fun _ => "y" }
    ∧ loadData { cxEnv1 with hash := fun _ => "x" } []
      = loadData { cxEnv1 with hash := fun _ => "y" } [] := by
  have h := C9_falsy_sha_skips_digest cxEnv1 (fun _ => "x") (fun _ => "y")
    [("url", .str "d.csv"), ("version", .str "1")] "MT"
    (by rfl) (by rfl) (Or.inl (by rfl))
  exact ⟨h.1, h.2 []⟩

/-- C6: on a non-empty row list, validation fails with a
missing-columns error exactly when some entry of
`schema.required_columns` is absent from the first row's key set; the
error then lists precisely the missing entries in order, and the
outcome does not depend on the rows after the first. -/
theorem C6_missing_columns_iff (env : Env) (r0 : JsVal) (rest : List JsVal)
    (schema rv : JsVal) (req missing : List JsVal)
    (hre : getPropE schema "required_columns" = .ok rv)
    (hra : jsArrForFilter (jsOrVal rv (.arr [])) = .ok req)
    (hmiss : missing = req.filter (fun c => !jsIncludes (jsKeys (jsOrVal r0 (.obj []))) c)) :
    ((∃ l, validateSchema env (r0 :: rest) schema = .error ("missing columns: " ++ l))
      ↔ missing ≠ [])
    ∧ (missing ≠ [] → ∀ rest', validateSchema env (r0 :: rest') schema =
        .error ("missing columns: " ++ jsJoinWith ", " missing)) := by
  subst hmiss
  by_cases hm : (req.filter fun c => !jsIncludes (jsKeys (jsOrVal r0 (.obj []))) c) = []
  · constructor
    · constructor
      · rintro ⟨l, hl⟩
        exfalso
        rw [validateSchema_cons_reduce env r0 rest hre hra, hm] at hl
        simp only [List.isEmpty_nil, if_true] at hl
        cases hnv : getPropE schema "numeric_columns" with
        | error e =>
          simp only [hnv] at hl
          injection hl with he
          rcases getPropE_error_shape hnv with h | h <;> subst h <;>
            exact ne_missingMsg_of_head (by decide) l he
        | ok nv =>
          simp only [hnv] at hl
          cases hit : jsIterate (jsOrVal nv (.arr [])) with
          | error e =>
            simp only [hit] at hl
            injection hl with he
            rw [jsIterate_error_shape hit] at he
            exact ne_missingMsg_of_head (by decide) l he
          | ok numCols =>
            simp only [hit] at hl
            rcases warnCols_error_shape hl with h | h <;>
              exact ne_missingMsg_of_head (by decide) l h.symm
      · intro hne
        exact (hne hm).elim
    · intro hne
      exact (hne hm).elim
  · have hev : ∀ rest', validateSchema env (r0 :: rest') schema =
        .error ("missing columns: " ++
          jsJoinWith ", " (req.filter fun c => !jsIncludes (jsKeys (jsOrVal r0 (.obj []))) c)) := by
      intro rest'
      rw [validateSchema_cons_reduce env r0 rest' hre hra]
      have hie : (req.filter fun c => !jsIncludes (jsKeys (jsOrVal r0 (.obj []))) c).isEmpty = false := by
        cases hq : req.filter fun c => !jsIncludes (jsKeys (jsOrVal r0 (.obj []))) c with
        | nil => exact absurd hq hm
        | cons a as => rfl
      rw [hie]
      rfl
    exact ⟨⟨fun _ => hm, fun _ => ⟨_, hev rest⟩⟩, fun _ => hev⟩

/-- C6 witness: a one-row dataset with column `a` against required
columns `a, b` fails listing exactly `b`, however the tail rows look. -/
theorem C6_missing_columns_iff_witness :
    validateSchema cxEnv1 [JsVal.obj [("a", .str "1")]]
      (.obj [("required_columns", .arr [.str "a", .str "b"])])
      = .error ("missing columns: " ++ jsJoinWith ", " [JsVal.str "b"]) :=
  (C6_missing_columns_iff cxEnv1 (.obj [("a", .str "1")]) []
      (.obj [("required_columns", .arr [.str "a", .str "b"])])
      (.arr [.str "a", .str "b"]) [.str "a", .str "b"] [.str "b"]
      (by rfl) (by rfl) (by rfl)).2 (by simp) []

/-- C7: over object rows whose first row carries every required column,
validation always succeeds whatever the cell values of the declared
numeric columns are: the sampler yields at most one warning per
declared column (in declaration order) and never an error, and the
whole validation reads only the first fifty rows. -/
theorem C7_numeric_sampling_advisory (env : Env) (first : List (String × JsVal))
    (rest : List (List (String × JsVal))) (schema rv nv : JsVal) (req numCols : List JsVal)
    (hre : getPropE schema "required_columns" = .ok rv)
    (hra : jsArrForFilter (jsOrVal rv (.arr [])) = .ok req)
    (hnv : getPropE schema "numeric_columns" = .ok nv)
    (hni : jsIterate (jsOrVal nv (.arr [])) = .ok numCols)
    (hcols : ∀ c ∈ req, jsIncludes (jsKeys (JsVal.obj first)) c = true) :
    (∃ ws, validateSchema env ((first :: rest).map JsVal.obj) schema = .ok ws
      ∧ List.Sublist (ws.map Prod.fst) numCols)
    ∧ (∀ rows₂ : List JsVal, ((first :: rest).map JsVal.obj).take 50 = rows₂.take 50 →
        validateSchema env rows₂ schema
          = validateSchema env ((first :: rest).map JsVal.obj) schema) := by
  constructor
  · have hobj : ∀ r ∈ (first :: rest).map JsVal.obj, ∃ kvs, r = JsVal.obj kvs := by
      intro r hr
      rw [List.mem_map] at hr
      obtain ⟨a, _, ha⟩ := hr
      exact ⟨a, ha.symm⟩
    have hsc : ∀ ky, ∃ o, sampleCells env ky (((first :: rest).map JsVal.obj).take 50) = .ok o := by
      intro ky
      apply sampleCells_ok_of_obj
      intro r hr
      exact hobj r (List.take_subset _ _ hr)
    obtain ⟨ws, hws, hsub⟩ := warnCols_ok_sublist hsc numCols
    refine ⟨ws, ?_, hsub⟩
    rw [List.map_cons, validateSchema_cons_reduce env (JsVal.obj first) (rest.map JsVal.obj) hre hra]
    have hmiss : (req.filter fun c =>
        !jsIncludes (jsKeys (jsOrVal (JsVal.obj first) (.obj []))) c) = [] := by
      rw [List.filter_eq_nil_iff]
      intro c hc
      simp only [jsOrVal, jsTruthy, if_true]
      rw [hcols c hc]
      decide
    rw [hmiss]
    simp only [List.isEmpty_nil, if_true, hnv, hni]
    rw [← List.map_cons]
    exact hws
  · intro rows₂ h
    exact (validateSchema_take_congr h schema).symm

/-- C7 witness: a dataset whose only cell is rejected by the `Number`
coercion still validates, producing the single advisory warning. -/
theorem C7_numeric_sampling_advisory_witness :
    ∃ ws, validateSchema cxEnvNaN (([("a", JsVal.str "1")] :: []).map JsVal.obj)
        (.obj [("required_columns", .arr [.str "a"]), ("numeric_columns", .arr [.str "a"])])
        = .ok ws
      ∧ List.Sublist (ws.map Prod.fst) [JsVal.str "a"] :=
  (C7_numeric_sampling_advisory cxEnvNaN [("a", .str "1")] []
      (.obj [("required_columns", .arr [.str "a"]), ("numeric_columns", .arr [.str "a"])])
      (.arr [.str "a"]) (.arr [.str "a"]) [.str "a"] [.str "a"]
      (by rfl) (by rfl) (by rfl) (by rfl)
      (by
        intro c hc
        rw [List.mem_singleton] at hc
        subst hc
        rfl)).1
